import Mathlib

/-!
Shallow embedding of the llm-request-tracer resilient request-tracking
pipeline (Go sources `circuit_breaker.go`, `context.go`, `client.go`,
`tracker.go`, and the error-classification/types file), together with
theorems settling the specification claims about it.

Modelling conventions:
* Go `time.Time` instants and `time.Duration` values are natural numbers
  (`time.Since t = now - t`); the caller of an operation passes the current
  instant `now` explicitly.
* Go `error` values are `Option String` (`none` = nil, `some msg` = an error
  whose `Error()` message is `msg`).
* `uuid.New().String()` results are passed in as explicit `fresh…` string
  parameters (one per generation site reached).
* The storage adapter's `Save` is an opaque function `Request → Option String`
  giving the error it returns for a record; the records actually handed to
  `Save` are collected in a `savedRequests` list so that "the wrapped
  operation was (not) invoked" is observable.
* Goroutines (async dispatch) are modelled by running the detached unit's
  effects immediately but against the context the Go code hands it
  (`context.Background()`); the context actually used is recorded so that
  context independence is statable.
-/

namespace LlmTracer

/-! ### Circuit breaker (`circuit_breaker.go`) -/

/-- Go `CircuitBreakerState` (`StateClosed`/`StateOpen`/`StateHalfOpen`). -/
inductive CircuitBreakerState where
  | StateClosed
  | StateOpen
  | StateHalfOpen
deriving DecidableEq, Repr

/-- Go `CircuitBreaker` struct. The `sync.Mutex` is not modelled: every
operation already runs atomically in this functional embedding, which is
exactly what holding the lock for the whole call achieves in the source. -/
structure CircuitBreaker where
  maxFailures : Nat
  resetTimeout : Nat
  state : CircuitBreakerState
  failures : Nat
  lastFailTime : Nat
  successCount : Nat
deriving DecidableEq, Repr

/-- Go `NewCircuitBreaker`: zero-valued fields except the two parameters and
the explicit `state: StateClosed`. -/
def NewCircuitBreaker (maxFailures resetTimeout : Nat) : CircuitBreaker :=
  { maxFailures := maxFailures
    resetTimeout := resetTimeout
    state := .StateClosed
    failures := 0
    lastFailTime := 0
    successCount := 0 }

/-- Go `ErrCircuitOpen = errors.New("circuit breaker is open")`. -/
def ErrCircuitOpen : String := "circuit breaker is open"

/-- Go `(*CircuitBreaker).recordFailure` at instant `now`. -/
def CircuitBreaker.recordFailure (cb : CircuitBreaker) (now : Nat) : CircuitBreaker :=
  let cb1 : CircuitBreaker := { cb with failures := cb.failures + 1, lastFailTime := now }
  if cb1.maxFailures ≤ cb1.failures then { cb1 with state := .StateOpen } else cb1

/-- Go `(*CircuitBreaker).recordSuccess`. -/
def CircuitBreaker.recordSuccess (cb : CircuitBreaker) : CircuitBreaker :=
  if cb.state = .StateHalfOpen then
    let cb1 : CircuitBreaker := { cb with successCount := cb.successCount + 1 }
    if 2 ≤ cb1.successCount then { cb1 with state := .StateClosed, failures := 0 } else cb1
  else if cb.state = .StateClosed then
    { cb with failures := 0 }
  else
    cb

/-- Result of one `Call`: the updated breaker, the returned error, and
whether the wrapped function was invoked (its side effects happened). -/
structure CallOutcome where
  cb : CircuitBreaker
  err : Option String
  invoked : Bool
deriving DecidableEq, Repr

/-- The `err := fn(); if err != nil { recordFailure } else { recordSuccess };
return err` tail of Go `(*CircuitBreaker).Call`.  `fnErr` is the error the
wrapped function returns when invoked. -/
def CircuitBreaker.runFn (cb : CircuitBreaker) (now : Nat) (fnErr : Option String) :
    CallOutcome :=
  match fnErr with
  | some e => ⟨cb.recordFailure now, some e, true⟩
  | none => ⟨cb.recordSuccess, none, true⟩

/-- Go `(*CircuitBreaker).Call` at instant `now`. -/
def CircuitBreaker.Call (cb : CircuitBreaker) (now : Nat) (fnErr : Option String) :
    CallOutcome :=
  if cb.state = .StateOpen then
    if cb.resetTimeout < now - cb.lastFailTime then
      CircuitBreaker.runFn { cb with state := .StateHalfOpen, successCount := 0 } now fnErr
    else
      ⟨cb, some ErrCircuitOpen, false⟩
  else
    cb.runFn now fnErr

/-- Go `(*CircuitBreaker).GetState` at instant `now`: returns the updated
breaker together with the reported state. -/
def CircuitBreaker.GetState (cb : CircuitBreaker) (now : Nat) :
    CircuitBreaker × CircuitBreakerState :=
  if cb.state = .StateOpen ∧ cb.resetTimeout < now - cb.lastFailTime then
    ({ cb with state := .StateHalfOpen, successCount := 0 }, .StateHalfOpen)
  else
    (cb, cb.state)

/-- Folding a sequence of guarded calls. Each list element is the instant of
the call and the error the wrapped function would return. -/
def CircuitBreaker.runCalls (cb : CircuitBreaker) : List (Nat × Option String) → CircuitBreaker
  | [] => cb
  | c :: rest => CircuitBreaker.runCalls (cb.Call c.1 c.2).cb rest

/-- The consecutive-failure counter of a call sequence, starting from
`start`: a failure increments, a success resets to zero. -/
def failSteps (start : Nat) (calls : List (Nat × Option String)) : Nat :=
  calls.foldl (fun acc c => match c.2 with | some _ => acc + 1 | none => 0) start

/-- States reachable through the public constructor and operations. -/
inductive Reachable : CircuitBreaker → Prop where
  | new : ∀ mf rt, Reachable (NewCircuitBreaker mf rt)
  | call : ∀ cb now fnErr, Reachable cb → Reachable (cb.Call now fnErr).cb
  | getState : ∀ cb now, Reachable cb → Reachable (cb.GetState now).1

/-- The implicit invariant: away from `StateClosed` the failure counter has
already reached the threshold. -/
def cbInvariant (cb : CircuitBreaker) : Prop :=
  cb.state = .StateOpen ∨ cb.state = .StateHalfOpen → cb.maxFailures ≤ cb.failures

theorem cbInvariant_recordFailure (cb : CircuitBreaker) (now : Nat) :
    cbInvariant cb → cbInvariant (cb.recordFailure now) := by
  intro hinv
  unfold CircuitBreaker.recordFailure
  dsimp only
  by_cases h : cb.maxFailures ≤ cb.failures + 1
  · rw [if_pos h]
    intro _
    exact h
  · rw [if_neg h]
    intro hor
    have := hinv hor
    show cb.maxFailures ≤ cb.failures + 1
    omega

theorem cbInvariant_recordSuccess (cb : CircuitBreaker) :
    cbInvariant cb → cbInvariant cb.recordSuccess := by
  intro hinv
  unfold CircuitBreaker.recordSuccess
  by_cases hho : cb.state = .StateHalfOpen
  · simp only [hho, if_pos]
    by_cases h2 : 2 ≤ cb.successCount + 1
    · simp only [h2, if_pos, cbInvariant]
      intro hor
      rcases hor with hst | hst <;> simp_all
    · simp only [h2, if_neg, if_false, cbInvariant]
      intro _
      exact hinv (Or.inr hho)
  · simp only [hho, if_neg, if_false]
    by_cases hcl : cb.state = .StateClosed
    · simp only [hcl, if_pos, cbInvariant]
      intro hor
      rcases hor with hst | hst <;> simp_all
    · simp only [hcl, if_neg, if_false]
      exact hinv

theorem cbInvariant_call (cb : CircuitBreaker) (now : Nat) (fnErr : Option String) :
    cbInvariant cb → cbInvariant (cb.Call now fnErr).cb := by
  intro hinv
  unfold CircuitBreaker.Call
  by_cases hop : cb.state = .StateOpen
  · simp only [hop, if_pos]
    by_cases htime : cb.resetTimeout < now - cb.lastFailTime
    · simp only [htime, if_pos]
      have hinv2 : cbInvariant { cb with state := .StateHalfOpen, successCount := 0 } := by
        intro _
        exact hinv (Or.inl hop)
      unfold CircuitBreaker.runFn
      cases fnErr with
      | some e =>
          exact cbInvariant_recordFailure _ now hinv2
      | none =>
          exact cbInvariant_recordSuccess _ hinv2
    · simp only [htime, if_neg, if_false]
      exact hinv
  · simp only [hop, if_neg, if_false]
    unfold CircuitBreaker.runFn
    cases fnErr with
    | some e => exact cbInvariant_recordFailure _ now hinv
    | none => exact cbInvariant_recordSuccess _ hinv

theorem cbInvariant_getState (cb : CircuitBreaker) (now : Nat) :
    cbInvariant cb → cbInvariant (cb.GetState now).1 := by
  intro hinv
  unfold CircuitBreaker.GetState
  by_cases h : cb.state = .StateOpen ∧ cb.resetTimeout < now - cb.lastFailTime
  · simp only [h, if_pos, cbInvariant]
    intro _
    exact hinv (Or.inl h.1)
  · simp only [h, if_neg, if_false]
    exact hinv

theorem reachable_cbInvariant (cb : CircuitBreaker) (h : Reachable cb) : cbInvariant cb := by
  induction h with
  | new mf rt =>
      intro hor
      rcases hor with hst | hst <;> simp [NewCircuitBreaker] at hst
  | call cb now fnErr _ ih => exact cbInvariant_call cb now fnErr ih
  | getState cb now _ ih => exact cbInvariant_getState cb now ih

theorem halfopen_failure_reopens (cb : CircuitBreaker) (now : Nat) (e : String)
    (hinv : cbInvariant cb) (hst : cb.state = .StateHalfOpen) :
    (cb.Call now (some e)).cb.state = .StateOpen ∧
      (cb.Call now (some e)).cb.lastFailTime = now := by
  have hcnt : cb.maxFailures ≤ cb.failures := hinv (Or.inr hst)
  unfold CircuitBreaker.Call
  simp only [hst, reduceCtorEq, if_false, CircuitBreaker.runFn]
  unfold CircuitBreaker.recordFailure
  simp only
  rw [if_pos (by omega)]
  exact ⟨rfl, rfl⟩

theorem failSteps_cons_fail (s now : Nat) (e : String) (rest : List (Nat × Option String)) :
    failSteps s ((now, some e) :: rest) = failSteps (s + 1) rest := rfl

theorem failSteps_cons_ok (s now : Nat) (rest : List (Nat × Option String)) :
    failSteps s ((now, none) :: rest) = failSteps 0 rest := rfl

theorem call_closed_fail (cb : CircuitBreaker) (now : Nat) (e : String)
    (hst : cb.state = .StateClosed) (hlt : cb.failures + 1 < cb.maxFailures) :
    (cb.Call now (some e)).cb =
      { cb with state := .StateClosed, failures := cb.failures + 1, lastFailTime := now } := by
  obtain ⟨mf, rt, st, f, lt, sc⟩ := cb
  simp only at hst hlt
  subst hst
  unfold CircuitBreaker.Call CircuitBreaker.runFn CircuitBreaker.recordFailure
  simp only [reduceCtorEq, if_false]
  rw [if_neg (by omega)]

theorem call_closed_fail_open (cb : CircuitBreaker) (now : Nat) (e : String)
    (hst : cb.state = .StateClosed) (hge : cb.maxFailures ≤ cb.failures + 1) :
    (cb.Call now (some e)).cb =
      { cb with state := .StateOpen, failures := cb.failures + 1, lastFailTime := now } := by
  obtain ⟨mf, rt, st, f, lt, sc⟩ := cb
  simp only at hst hge
  subst hst
  unfold CircuitBreaker.Call CircuitBreaker.runFn CircuitBreaker.recordFailure
  simp only [reduceCtorEq, if_false]
  rw [if_pos (by omega)]

theorem call_closed_ok (cb : CircuitBreaker) (now : Nat)
    (hst : cb.state = .StateClosed) :
    (cb.Call now none).cb = { cb with state := .StateClosed, failures := 0 } := by
  obtain ⟨mf, rt, st, f, lt, sc⟩ := cb
  simp only at hst
  subst hst
  unfold CircuitBreaker.Call CircuitBreaker.runFn CircuitBreaker.recordSuccess
  simp

theorem runCalls_closed (calls : List (Nat × Option String)) :
    ∀ cb : CircuitBreaker, cb.state = .StateClosed →
      (∀ p ∈ calls.inits, failSteps cb.failures p < cb.maxFailures) →
      (cb.runCalls calls).state = .StateClosed ∧
        (cb.runCalls calls).failures = failSteps cb.failures calls := by
  induction calls with
  | nil =>
      intro cb hst _
      exact ⟨hst, rfl⟩
  | cons c rest ih =>
      intro cb hst hbound
      obtain ⟨now, fnErr⟩ := c
      have hnil : ([] : List (Nat × Option String)) ∈ rest.inits :=
        (List.mem_inits _ _).2 (List.nil_prefix)
      have hbrest : ∀ p ∈ rest.inits,
          ((now, fnErr) :: p) ∈ ((now, fnErr) :: rest).inits := by
        intro p hp
        rw [List.inits_cons]
        exact List.mem_cons_of_mem _ (List.mem_map_of_mem _ hp)
      cases fnErr with
      | some e =>
          have h1 : failSteps cb.failures [(now, some e)] < cb.maxFailures :=
            hbound _ (hbrest [] hnil)
          rw [failSteps_cons_fail] at h1
          have hcall := call_closed_fail cb now e hst (by simpa [failSteps] using h1)
          simp only [CircuitBreaker.runCalls, hcall, failSteps_cons_fail]
          exact ih _ rfl (fun p hp => by
            have := hbound _ (hbrest p hp)
            rwa [failSteps_cons_fail] at this)
      | none =>
          have hcall := call_closed_ok cb now hst
          simp only [CircuitBreaker.runCalls, hcall, failSteps_cons_ok]
          exact ih _ rfl (fun p hp => by
            have := hbound _ (hbrest p hp)
            rwa [failSteps_cons_ok] at this)

theorem runCalls_all_fail_closed (calls : List (Nat × Option String)) :
    ∀ cb : CircuitBreaker, cb.state = .StateClosed →
      (∀ c ∈ calls, c.2 ≠ none) →
      cb.failures + calls.length < cb.maxFailures →
      (cb.runCalls calls).state = .StateClosed ∧
        (cb.runCalls calls).failures = cb.failures + calls.length := by
  induction calls with
  | nil =>
      intro cb hst _ _
      exact ⟨hst, rfl⟩
  | cons c rest ih =>
      intro cb hst hfail hlen
      obtain ⟨now, fnErr⟩ := c
      have hne : fnErr ≠ none := hfail (now, fnErr) (List.mem_cons_self _ _)
      obtain ⟨e, rfl⟩ : ∃ e, fnErr = some e := by
        cases fnErr with
        | none => exact absurd rfl hne
        | some e => exact ⟨e, rfl⟩
      have hlt : cb.failures + 1 < cb.maxFailures := by
        simp only [List.length_cons] at hlen
        omega
      have hcall := call_closed_fail cb now e hst hlt
      simp only [CircuitBreaker.runCalls, hcall]
      have := ih { cb with state := .StateClosed, failures := cb.failures + 1, lastFailTime := now }
        rfl (fun c hc => hfail c (List.mem_cons_of_mem _ hc))
        (by
          show cb.failures + 1 + rest.length < cb.maxFailures
          simp only [List.length_cons] at hlen
          omega)
      refine ⟨this.1, ?_⟩
      rw [this.2]
      show cb.failures + 1 + rest.length = cb.failures + ((now, some e) :: rest).length
      simp only [List.length_cons]
      omega

theorem runCalls_all_fail_opens (calls : List (Nat × Option String)) :
    ∀ cb : CircuitBreaker, cb.state = .StateClosed →
      (∀ c ∈ calls, c.2 ≠ none) →
      cb.failures + calls.length = cb.maxFailures →
      1 ≤ calls.length →
      (cb.runCalls calls).state = .StateOpen := by
  induction calls with
  | nil =>
      intro _ _ _ _ hlen
      simp at hlen
  | cons c rest ih =>
      intro cb hst hfail hsum _
      obtain ⟨now, fnErr⟩ := c
      have hne : fnErr ≠ none := hfail (now, fnErr) (List.mem_cons_self _ _)
      obtain ⟨e, rfl⟩ : ∃ e, fnErr = some e := by
        cases fnErr with
        | none => exact absurd rfl hne
        | some e => exact ⟨e, rfl⟩
      cases rest with
      | nil =>
          have hge : cb.maxFailures ≤ cb.failures + 1 := by
            simp only [List.length_cons, List.length_nil] at hsum
            omega
          have hcall := call_closed_fail_open cb now e hst hge
          simp only [CircuitBreaker.runCalls, hcall]
      | cons c2 rest2 =>
          have hlt : cb.failures + 1 < cb.maxFailures := by
            simp only [List.length_cons] at hsum
            omega
          have hcall := call_closed_fail cb now e hst hlt
          simp only [CircuitBreaker.runCalls, hcall]
          exact ih _ rfl (fun c hc => hfail c (List.mem_cons_of_mem _ hc))
            (by
              show cb.failures + 1 + (c2 :: rest2).length = cb.maxFailures
              simp only [List.length_cons] at hsum ⊢
              omega)
            (by simp)

/-- C3: whenever the breaker is Open and the elapsed time since
`last_failure_time` does not exceed `reset_timeout`, `Call` returns the
distinguished `ErrCircuitOpen` error (whose message is
"circuit breaker is open"), leaves the breaker state unchanged, and never
invokes the wrapped operation (so none of its side effects occur). -/
theorem c3_open_fail_fast (cb : CircuitBreaker) (now : Nat) (fnErr : Option String)
    (hst : cb.state = .StateOpen)
    (helapsed : now - cb.lastFailTime ≤ cb.resetTimeout) :
    cb.Call now fnErr = ⟨cb, some ErrCircuitOpen, false⟩ ∧
      ErrCircuitOpen = "circuit breaker is open" := by
  constructor
  · unfold CircuitBreaker.Call
    rw [if_pos hst, if_neg (by omega)]
  · rfl

/-- Witness for C3 at a concrete open breaker within the reset timeout. -/
theorem c3_open_fail_fast_witness :
    ({ maxFailures := 1, resetTimeout := 10, state := .StateOpen, failures := 1,
       lastFailTime := 5, successCount := 0 } : CircuitBreaker).Call 8 none =
      ⟨{ maxFailures := 1, resetTimeout := 10, state := .StateOpen, failures := 1,
         lastFailTime := 5, successCount := 0 }, some ErrCircuitOpen, false⟩ :=
  (c3_open_fail_fast _ 8 none rfl (by decide)).1

/-- C4: for a breaker configured with `max_failures = N` (N ≥ 1) started
fresh in Closed: (i) any call sequence containing no run of N consecutive
failures since the last success leaves the breaker Closed; (ii) exactly N
consecutive failed calls leave it Open; (iii) N-1 consecutive failed calls
leave it Closed; (iv) a single success while Closed resets the failure
counter to zero (and stays Closed). -/
theorem c4_threshold (N rt : Nat) (hN : 1 ≤ N) :
    (∀ calls : List (Nat × Option String),
        (∀ p ∈ calls.inits, failSteps 0 p < N) →
        ((NewCircuitBreaker N rt).runCalls calls).state = .StateClosed) ∧
    (∀ calls : List (Nat × Option String),
        (∀ c ∈ calls, c.2 ≠ none) → calls.length = N →
        ((NewCircuitBreaker N rt).runCalls calls).state = .StateOpen) ∧
    (∀ calls : List (Nat × Option String),
        (∀ c ∈ calls, c.2 ≠ none) → calls.length = N - 1 →
        ((NewCircuitBreaker N rt).runCalls calls).state = .StateClosed) ∧
    (∀ cb : CircuitBreaker, cb.state = .StateClosed → ∀ now,
        (cb.Call now none).cb.failures = 0 ∧ (cb.Call now none).cb.state = .StateClosed) := by
  refine ⟨?_, ?_, ?_, ?_⟩
  · intro calls hbound
    exact (runCalls_closed calls (NewCircuitBreaker N rt) rfl hbound).1
  · intro calls hfail hlen
    exact runCalls_all_fail_opens calls (NewCircuitBreaker N rt) rfl hfail
      (by show 0 + calls.length = N; omega) (by omega)
  · intro calls hfail hlen
    exact (runCalls_all_fail_closed calls (NewCircuitBreaker N rt) rfl hfail
      (by show 0 + calls.length < N; omega)).1
  · intro cb hst now
    rw [call_closed_ok cb now hst]
    exact ⟨rfl, rfl⟩

/-- Witness for C4 with N = 2: a sequence broken by a success stays Closed,
two straight failures open, one failure stays Closed, and a success in
Closed resets the counter. -/
theorem c4_threshold_witness :
    ((NewCircuitBreaker 2 10).runCalls [(0, some "e"), (1, none), (2, some "e")]).state
        = .StateClosed ∧
    ((NewCircuitBreaker 2 10).runCalls [(0, some "e"), (1, some "e")]).state = .StateOpen ∧
    ((NewCircuitBreaker 2 10).runCalls [(0, some "e")]).state = .StateClosed ∧
    (((NewCircuitBreaker 2 10).Call 0 none).cb.failures = 0 ∧
      ((NewCircuitBreaker 2 10).Call 0 none).cb.state = .StateClosed) := by
  have h := c4_threshold 2 10 (by decide)
  exact ⟨h.1 _ (by decide), h.2.1 _ (by decide) (by decide),
    h.2.2.1 _ (by decide) (by decide), h.2.2.2 (NewCircuitBreaker 2 10) rfl 0⟩

/-- C6: whenever the breaker is Open and the elapsed time since
`last_failure_time` exceeds `reset_timeout`, the next inspection — `GetState`
or `Call` — transitions it to Half-Open with `success_count` reset to zero,
and a guarded call in that situation does invoke the wrapped operation;
conversely while the timeout has not elapsed no transition happens on
inspection (the transition is lazy, occurring only on such inspections). -/
theorem c6_lazy_halfopen (cb : CircuitBreaker) (now : Nat) (hst : cb.state = .StateOpen) :
    (cb.resetTimeout < now - cb.lastFailTime →
      cb.GetState now = ({ cb with state := .StateHalfOpen, successCount := 0 },
          .StateHalfOpen) ∧
      ∀ fnErr, (cb.Call now fnErr).invoked = true) ∧
    (now - cb.lastFailTime ≤ cb.resetTimeout →
      cb.GetState now = (cb, .StateOpen) ∧
      ∀ fnErr, (cb.Call now fnErr).invoked = false) := by
  constructor
  · intro ht
    constructor
    · unfold CircuitBreaker.GetState
      rw [if_pos ⟨hst, ht⟩]
    · intro fnErr
      unfold CircuitBreaker.Call
      rw [if_pos hst, if_pos ht]
      unfold CircuitBreaker.runFn
      cases fnErr <;> rfl
  · intro ht
    constructor
    · unfold CircuitBreaker.GetState
      rw [if_neg (by omega), hst]
    · intro fnErr
      unfold CircuitBreaker.Call
      rw [if_pos hst, if_neg (by omega)]

/-- Witness for C6 at a concrete open breaker, before and after the reset
timeout elapses. -/
theorem c6_lazy_halfopen_witness :
    ({ maxFailures := 1, resetTimeout := 10, state := .StateOpen, failures := 1,
       lastFailTime := 0, successCount := 7 } : CircuitBreaker).GetState 11 =
      ({ maxFailures := 1, resetTimeout := 10, state := .StateHalfOpen, failures := 1,
         lastFailTime := 0, successCount := 0 }, .StateHalfOpen) ∧
    (({ maxFailures := 1, resetTimeout := 10, state := .StateOpen, failures := 1,
        lastFailTime := 0, successCount := 7 } : CircuitBreaker).Call 11 none).invoked = true ∧
    ({ maxFailures := 1, resetTimeout := 10, state := .StateOpen, failures := 1,
       lastFailTime := 0, successCount := 7 } : CircuitBreaker).GetState 3 =
      ({ maxFailures := 1, resetTimeout := 10, state := .StateOpen, failures := 1,
         lastFailTime := 0, successCount := 7 }, .StateOpen) := by
  have h1 := c6_lazy_halfopen
    { maxFailures := 1, resetTimeout := 10, state := .StateOpen, failures := 1,
      lastFailTime := 0, successCount := 7 } 11 rfl
  have h2 := c6_lazy_halfopen
    { maxFailures := 1, resetTimeout := 10, state := .StateOpen, failures := 1,
      lastFailTime := 0, successCount := 7 } 3 rfl
  exact ⟨(h1.1 (by decide)).1, (h1.1 (by decide)).2 none, (h2.2 (by decide)).1⟩

/-- C10: for every reachable breaker state created with `maxFailures ≥ 1`,
being Open or Half-Open implies `failures ≥ maxFailures`; this predicate is
preserved by every `Call` and by every `GetState`; and it is what makes a
single failure while Half-Open re-open the circuit (the failure handler has
no explicit half-open branch). -/
theorem c10_reachable_invariant (cb : CircuitBreaker) (h : Reachable cb)
    (_hm : 1 ≤ cb.maxFailures) :
    (cb.state = .StateOpen ∨ cb.state = .StateHalfOpen → cb.maxFailures ≤ cb.failures) ∧
    (∀ now fnErr,
      (cb.Call now fnErr).cb.state = .StateOpen ∨
          (cb.Call now fnErr).cb.state = .StateHalfOpen →
        (cb.Call now fnErr).cb.maxFailures ≤ (cb.Call now fnErr).cb.failures) ∧
    (∀ now,
      ((cb.GetState now).1.state = .StateOpen ∨ (cb.GetState now).1.state = .StateHalfOpen) →
        (cb.GetState now).1.maxFailures ≤ (cb.GetState now).1.failures) ∧
    (∀ now e, cb.state = .StateHalfOpen → (cb.Call now (some e)).cb.state = .StateOpen) := by
  have hinv := reachable_cbInvariant cb h
  exact ⟨hinv, fun now fnErr => cbInvariant_call cb now fnErr hinv,
    fun now => cbInvariant_getState cb now hinv,
    fun now e hho => (halfopen_failure_reopens cb now e hinv hho).1⟩

/-- Witness for C10: a breaker with threshold 1 that just recorded its first
failure is reachable, Open, and satisfies `maxFailures ≤ failures`. -/
theorem c10_reachable_invariant_witness :
    ((NewCircuitBreaker 1 10).Call 0 (some "e")).cb.maxFailures ≤
      ((NewCircuitBreaker 1 10).Call 0 (some "e")).cb.failures :=
  (c10_reachable_invariant _ (Reachable.call _ 0 (some "e") (Reachable.new 1 10))
    (by decide)).1 (Or.inl (by decide))

/-- C5: for every reachable breaker in Half-Open: a single failed guarded
call transitions it immediately back to Open and updates `last_failure_time`
to the call instant (no threshold); from a freshly entered Half-Open state
(`success_count = 0`) one successful call leaves it Half-Open, while a second
consecutive success transitions it to Closed and resets the failure count to
zero. -/
theorem c5_halfopen (cb : CircuitBreaker) (h : Reachable cb) (_hm : 1 ≤ cb.maxFailures)
    (hst : cb.state = .StateHalfOpen) :
    (∀ now e, (cb.Call now (some e)).cb.state = .StateOpen ∧
        (cb.Call now (some e)).cb.lastFailTime = now) ∧
    (cb.successCount = 0 → ∀ now1 now2,
        (cb.Call now1 none).cb.state = .StateHalfOpen ∧
        ((cb.Call now1 none).cb.Call now2 none).cb.state = .StateClosed ∧
        ((cb.Call now1 none).cb.Call now2 none).cb.failures = 0) := by
  refine ⟨fun now e => halfopen_failure_reopens cb now e (reachable_cbInvariant cb h) hst, ?_⟩
  intro hsc now1 now2
  have h1 : (cb.Call now1 none).cb =
      { cb with state := .StateHalfOpen, successCount := 1 } := by
    obtain ⟨mf, rt, st, f, lt, sc⟩ := cb
    simp only at hst hsc
    subst hst
    subst hsc
    unfold CircuitBreaker.Call CircuitBreaker.runFn CircuitBreaker.recordSuccess
    simp
  have h2 : (({ cb with state := .StateHalfOpen, successCount := 1 } :
      CircuitBreaker).Call now2 none).cb =
      { cb with state := .StateClosed, failures := 0, successCount := 2 } := by
    obtain ⟨mf, rt, st, f, lt, sc⟩ := cb
    unfold CircuitBreaker.Call CircuitBreaker.runFn CircuitBreaker.recordSuccess
    simp
  rw [h1, h2]
  exact ⟨rfl, rfl, rfl⟩

/-- Witness for C5 at a concrete reachable Half-Open breaker (opened by one
failure, then inspected after the reset timeout): one further failure
re-opens it, and two consecutive successes close it. -/
theorem c5_halfopen_witness :
    ((((NewCircuitBreaker 1 10).Call 0 (some "b")).cb.GetState 11).1.Call 12
        (some "c")).cb.state = .StateOpen ∧
    ((((((NewCircuitBreaker 1 10).Call 0 (some "b")).cb.GetState 11).1.Call 12
        none).cb.Call 13 none).cb.state = .StateClosed) := by
  have h := c5_halfopen ((((NewCircuitBreaker 1 10).Call 0 (some "b")).cb.GetState 11).1)
    (Reachable.getState _ 11 (Reachable.call _ 0 (some "b") (Reachable.new 1 10)))
    (by decide) (by decide)
  exact ⟨(h.1 12 "c").1, (h.2 (by decide) 12 13).2.1⟩

/-! ### Error classification (`Provider`/`ErrorType`/`CategorizeError` file) -/

/-- Go `strings.Contains s substr`: substring containment. The keyword
matching below is over ASCII text, where containment of the character list
coincides with Go's byte-level containment. -/
def strContains (s substr : String) : Bool :=
  decide (substr.toList <:+: s.toList)

/-- Go `strings.ToLower`: the classifier only lowers ASCII letters in
practice, which `Char.toLower` performs. -/
def strToLower (s : String) : String :=
  String.mk (s.toList.map Char.toLower)

/-- Go `ErrorType` string constants, as an enumeration. -/
inductive ErrorType where
  | ErrorTypeNone
  | ErrorTypeNetwork
  | ErrorTypeRateLimit
  | ErrorTypeAuthentication
  | ErrorTypeInvalidRequest
  | ErrorTypeTimeout
  | ErrorTypeServerError
  | ErrorTypeUnknown
deriving DecidableEq, Repr

/-- First keyword group of `CategorizeError` (rate limit). -/
def matchesRateLimit (errStr : String) : Bool :=
  strContains errStr "rate limit" || strContains errStr "too many requests" ||
    strContains errStr "429"

/-- Second keyword group of `CategorizeError` (authentication). -/
def matchesAuthentication (errStr : String) : Bool :=
  strContains errStr "unauthorized" || strContains errStr "authentication" ||
    strContains errStr "api key" || strContains errStr "401" ||
    strContains errStr "403" || strContains errStr "forbidden"

/-- Third keyword group of `CategorizeError` (network, checked before
timeout). -/
def matchesNetwork (errStr : String) : Bool :=
  strContains errStr "connection" || strContains errStr "network" ||
    strContains errStr "dial tcp" || strContains errStr "dns" ||
    strContains errStr "no such host"

/-- Fourth keyword group of `CategorizeError` (timeout). -/
def matchesTimeout (errStr : String) : Bool :=
  strContains errStr "timeout" || strContains errStr "deadline exceeded" ||
    strContains errStr "context canceled"

/-- Fifth keyword group of `CategorizeError` (invalid request). -/
def matchesInvalidRequest (errStr : String) : Bool :=
  strContains errStr "invalid" || strContains errStr "bad request" ||
    strContains errStr "400" || strContains errStr "malformed"

/-- Sixth keyword group of `CategorizeError` (server error). -/
def matchesServerError (errStr : String) : Bool :=
  strContains errStr "500" || strContains errStr "502" ||
    strContains errStr "503" || strContains errStr "504" ||
    strContains errStr "server error" || strContains errStr "internal error"

/-- Go `CategorizeError`: lower-case the message and test the ordered keyword
groups, first match wins; inside the timeout group, "504" is reclassified as
a server error.  `none` models a nil error. -/
def CategorizeError (err : Option String) : ErrorType :=
  match err with
  | none => .ErrorTypeNone
  | some msg =>
    let errStr := strToLower msg
    if matchesRateLimit errStr then .ErrorTypeRateLimit
    else if matchesAuthentication errStr then .ErrorTypeAuthentication
    else if matchesNetwork errStr then .ErrorTypeNetwork
    else if matchesTimeout errStr then
      if strContains errStr "504" then .ErrorTypeServerError
      else .ErrorTypeTimeout
    else if matchesInvalidRequest errStr then .ErrorTypeInvalidRequest
    else if matchesServerError errStr then .ErrorTypeServerError
    else .ErrorTypeUnknown

/-- C7: `CategorizeError` lower-cases the message and tests the ordered
keyword groups with first-match-wins: "dial tcp: connection timeout" matches
the timeout keywords yet classifies as network; any message containing "504"
that reaches the timeout group classifies as server_error (in particular
"504 Gateway Timeout"); classification is case-insensitive
("RATE LIMIT EXCEEDED" is rate_limit); a message matching no keyword group is
unknown; a nil error is none. -/
theorem c7_categorize_tiebreaks :
    CategorizeError none = .ErrorTypeNone ∧
    (CategorizeError (some "dial tcp: connection timeout") = .ErrorTypeNetwork ∧
      matchesTimeout (strToLower "dial tcp: connection timeout") = true) ∧
    (CategorizeError (some "504 Gateway Timeout") = .ErrorTypeServerError ∧
      matchesTimeout (strToLower "504 Gateway Timeout") = true) ∧
    CategorizeError (some "RATE LIMIT EXCEEDED") = .ErrorTypeRateLimit ∧
    (∀ msg : String,
      matchesRateLimit (strToLower msg) = false →
      matchesAuthentication (strToLower msg) = false →
      matchesNetwork (strToLower msg) = false →
      matchesTimeout (strToLower msg) = false →
      matchesInvalidRequest (strToLower msg) = false →
      matchesServerError (strToLower msg) = false →
      CategorizeError (some msg) = .ErrorTypeUnknown) ∧
    (∀ msg : String,
      matchesRateLimit (strToLower msg) = false →
      matchesAuthentication (strToLower msg) = false →
      matchesNetwork (strToLower msg) = false →
      matchesTimeout (strToLower msg) = true →
      strContains (strToLower msg) "504" = true →
      CategorizeError (some msg) = .ErrorTypeServerError) := by
  refine ⟨by decide, ⟨by decide, by decide⟩, ⟨by decide, by decide⟩, by decide, ?_, ?_⟩
  · intro msg h1 h2 h3 h4 h5 h6
    simp [CategorizeError, h1, h2, h3, h4, h5, h6]
  · intro msg h1 h2 h3 h4 h5
    simp [CategorizeError, h1, h2, h3, h4, h5]

/-- Witness for C7: the universally quantified conjuncts applied to concrete
messages ("flux capacitor misaligned" matches no keyword group;
"504 gateway timeout" reaches the timeout group containing "504"). -/
theorem c7_categorize_tiebreaks_witness :
    CategorizeError (some "flux capacitor misaligned") = .ErrorTypeUnknown ∧
    CategorizeError (some "504 gateway timeout") = .ErrorTypeServerError := by
  have h := c7_categorize_tiebreaks
  exact ⟨h.2.2.2.2.1 "flux capacitor misaligned"
      (by decide) (by decide) (by decide) (by decide) (by decide) (by decide),
    h.2.2.2.2.2 "504 gateway timeout"
      (by decide) (by decide) (by decide) (by decide) (by decide)⟩

/-! ### Metadata context (`context.go`) -/

/-- A Go `interface{}` value as it occurs in dimension maps: the examples in
the repository store strings and integers; `goSprintf` is `fmt.Sprintf "%v"`
on such a value. -/
inductive GoVal where
  | str (s : String)
  | int (n : Int)
deriving DecidableEq, Repr

/-- Go `fmt.Sprintf("%v", v)` for the modelled values. -/
def goSprintf : GoVal → String
  | .str s => s
  | .int n => toString n

/-- Go map assignment `m[k] = v` on an association-list model of
`map[string]interface{}`: replace the binding if the key is present,
otherwise append it. -/
def mapSet (m : List (String × GoVal)) (k : String) (v : GoVal) :
    List (String × GoVal) :=
  if m.any (fun p => p.1 = k) then
    m.map (fun p => if p.1 = k then (k, v) else p)
  else
    m ++ [(k, v)]

/-- The copy loop `for k, v := range src { dst[k] = v }`. -/
def insertAll (acc : List (String × GoVal)) (src : List (String × GoVal)) :
    List (String × GoVal) :=
  src.foldl (fun acc p => mapSet acc p.1 p.2) acc

/-- The five private `contextKey` constants of `context.go`. -/
inductive ContextKey where
  | traceIDKey
  | userIDKey
  | workflowKey
  | featureKey
  | dimensionsKey
deriving DecidableEq, Repr

/-- A value stored in a context: a string for the four scalar keys, or a
(possibly nil) dimension map for `dimensionsKey`. -/
inductive CtxVal where
  | str (s : String)
  | dims (m : Option (List (String × GoVal)))
deriving DecidableEq, Repr

/-- A Go `context.Context` as the library uses it: the nil interface value,
`context.Background()`, or a `context.WithValue` chain. -/
inductive Context where
  | nilContext
  | background
  | withValue (parent : Context) (key : ContextKey) (val : CtxVal)
deriving DecidableEq, Repr

/-- Go `ctx.Value(key)`: the most recently attached value for the key. -/
def Context.value : Context → ContextKey → Option CtxVal
  | .nilContext, _ => none
  | .background, _ => none
  | .withValue parent k v, key => if k = key then some v else Context.value parent key

/-- Go type assertion `.(string)` on a stored context value. -/
def CtxVal.asString : CtxVal → Option String
  | .str s => some s
  | .dims _ => none

/-- Go type assertion `.(map[string]interface{})` on a stored context value. -/
def CtxVal.asDims : CtxVal → Option (Option (List (String × GoVal)))
  | .dims m => some m
  | .str _ => none

/-- Go `WithTraceID`. -/
def WithTraceID (ctx : Context) (traceID : String) : Context :=
  .withValue ctx .traceIDKey (.str traceID)

/-- Go `WithUserID`. -/
def WithUserID (ctx : Context) (userID : String) : Context :=
  .withValue ctx .userIDKey (.str userID)

/-- Go `WithWorkflow`. -/
def WithWorkflow (ctx : Context) (workflow : String) : Context :=
  .withValue ctx .workflowKey (.str workflow)

/-- Go `WithFeature`. -/
def WithFeature (ctx : Context) (feature : String) : Context :=
  .withValue ctx .featureKey (.str feature)

/-- Go `WithDimensions` (the stored map may itself be nil). -/
def WithDimensions (ctx : Context) (dimensions : Option (List (String × GoVal))) : Context :=
  .withValue ctx .dimensionsKey (.dims dimensions)

/-- Go `GetTraceIDFromContext`; `fresh` is the string `uuid.New().String()`
would produce at the (single possible) generation site. -/
def GetTraceIDFromContext (fresh : String) (ctx : Context) : String :=
  if ctx = .nilContext then fresh
  else
    match (ctx.value .traceIDKey).bind CtxVal.asString with
    | some traceID => if traceID ≠ "" then traceID else fresh
    | none => fresh

/-- Go `GetUserIDFromContext`. -/
def GetUserIDFromContext (ctx : Context) : String :=
  if ctx = .nilContext then ""
  else
    match (ctx.value .userIDKey).bind CtxVal.asString with
    | some userID => userID
    | none => ""

/-- The custom dimension map attached to a context (empty when the key is
absent, holds a non-map value, or holds a nil map), as
`GetDimensionsFromContext` ranges over it. -/
def customDimsOf (ctx : Context) : List (String × GoVal) :=
  match (ctx.value .dimensionsKey).bind CtxVal.asDims with
  | some (some m) => m
  | _ => []

/-- The `if userID := GetUserIDFromContext(ctx); userID != ""` statement of
`GetDimensionsFromContext`. -/
def withUserDim (ctx : Context) (dims : List (String × GoVal)) : List (String × GoVal) :=
  if GetUserIDFromContext ctx ≠ "" then
    mapSet dims "user_id" (.str (GetUserIDFromContext ctx))
  else dims

/-- The workflow statement of `GetDimensionsFromContext`. -/
def withWorkflowDim (ctx : Context) (dims : List (String × GoVal)) : List (String × GoVal) :=
  match (ctx.value .workflowKey).bind CtxVal.asString with
  | some workflow => if workflow ≠ "" then mapSet dims "workflow" (.str workflow) else dims
  | none => dims

/-- The feature statement of `GetDimensionsFromContext`. -/
def withFeatureDim (ctx : Context) (dims : List (String × GoVal)) : List (String × GoVal) :=
  match (ctx.value .featureKey).bind CtxVal.asString with
  | some feature => if feature ≠ "" then mapSet dims "feature" (.str feature) else dims
  | none => dims

/-- Go `GetDimensionsFromContext`: `none` would model a nil Go map, and the
function never returns one (it starts from `make(map[string]interface{})`). -/
def GetDimensionsFromContext (ctx : Context) : Option (List (String × GoVal)) :=
  if ctx = .nilContext then some []
  else
    some (withFeatureDim ctx (withWorkflowDim ctx
      (withUserDim ctx (insertAll [] (customDimsOf ctx)))))

theorem mem_mapSet_self (m : List (String × GoVal)) (k : String) (v : GoVal) :
    (k, v) ∈ mapSet m k v := by
  unfold mapSet
  by_cases h : m.any (fun p => p.1 = k) = true
  · rw [if_pos h]
    rw [List.any_eq_true] at h
    obtain ⟨p0, hp0, hpk⟩ := h
    have hk : p0.1 = k := of_decide_eq_true hpk
    exact List.mem_map.2 ⟨p0, hp0, by rw [if_pos hk]⟩
  · rw [if_neg h]
    exact List.mem_append_right _ (List.mem_singleton.2 rfl)

theorem mem_mapSet_of_ne (m : List (String × GoVal)) (k k2 : String) (v v2 : GoVal)
    (hmem : (k, v) ∈ m) (hne : k ≠ k2) : (k, v) ∈ mapSet m k2 v2 := by
  unfold mapSet
  by_cases h : m.any (fun p => p.1 = k2) = true
  · rw [if_pos h]
    exact List.mem_map.2 ⟨(k, v), hmem, by rw [if_neg hne]⟩
  · rw [if_neg h]
    exact List.mem_append_left _ hmem

theorem mem_mapSet_elim (m : List (String × GoVal)) (k k2 : String) (v v2 : GoVal)
    (hmem : (k, v) ∈ mapSet m k2 v2) : k = k2 ∨ (k, v) ∈ m := by
  unfold mapSet at hmem
  by_cases h : m.any (fun p => p.1 = k2) = true
  · rw [if_pos h] at hmem
    obtain ⟨p0, hp0, himg⟩ := List.mem_map.1 hmem
    by_cases hpk : p0.1 = k2
    · rw [if_pos hpk] at himg
      exact Or.inl (congrArg Prod.fst himg.symm)
    · rw [if_neg hpk] at himg
      right
      rwa [himg] at hp0
  · rw [if_neg h] at hmem
    rcases List.mem_append.1 hmem with hm | hs
    · exact Or.inr hm
    · left
      have : (k, v) = (k2, v2) := List.mem_singleton.1 hs
      exact congrArg Prod.fst this

theorem mem_insertAll_of_not_key (src : List (String × GoVal)) :
    ∀ acc : List (String × GoVal), ∀ k v, (k, v) ∈ acc →
      k ∉ src.map Prod.fst → (k, v) ∈ insertAll acc src := by
  induction src with
  | nil => intro acc k v hmem _; exact hmem
  | cons p rest ih =>
      intro acc k v hmem hk
      simp only [List.map_cons, List.mem_cons] at hk
      push_neg at hk
      exact ih _ k v (mem_mapSet_of_ne _ _ _ _ _ hmem hk.1) hk.2

theorem mem_insertAll_of_mem (src : List (String × GoVal)) :
    ∀ acc : List (String × GoVal), (src.map Prod.fst).Nodup →
      ∀ k v, (k, v) ∈ src → (k, v) ∈ insertAll acc src := by
  induction src with
  | nil => intro _ _ k v hmem; simp at hmem
  | cons p rest ih =>
      intro acc hnd k v hmem
      simp only [List.map_cons, List.nodup_cons] at hnd
      rcases List.mem_cons.1 hmem with heq | hrest
      · subst heq
        exact mem_insertAll_of_not_key rest _ k v (mem_mapSet_self acc k v) hnd.1
      · exact ih _ hnd.2 k v hrest

theorem mem_insertAll_elim (src : List (String × GoVal)) :
    ∀ acc : List (String × GoVal), ∀ k v, (k, v) ∈ insertAll acc src →
      (k, v) ∈ acc ∨ k ∈ src.map Prod.fst := by
  induction src with
  | nil => intro acc k v hmem; exact Or.inl hmem
  | cons p rest ih =>
      intro acc k v hmem
      rcases ih _ k v hmem with hacc | hrest
      · rcases mem_mapSet_elim acc k p.1 v p.2 hacc with heq | hm
        · exact Or.inr (by simp [heq])
        · exact Or.inl hm
      · exact Or.inr (by simp [hrest])

theorem mem_withUserDim_of_ne (ctx : Context) (dims : List (String × GoVal))
    (k : String) (v : GoVal) (hmem : (k, v) ∈ dims) (hne : k ≠ "user_id") :
    (k, v) ∈ withUserDim ctx dims := by
  unfold withUserDim
  by_cases h : GetUserIDFromContext ctx ≠ ""
  · rw [if_pos h]
    exact mem_mapSet_of_ne _ _ _ _ _ hmem hne
  · rwa [if_neg h]

theorem mem_withWorkflowDim_of_ne (ctx : Context) (dims : List (String × GoVal))
    (k : String) (v : GoVal) (hmem : (k, v) ∈ dims) (hne : k ≠ "workflow") :
    (k, v) ∈ withWorkflowDim ctx dims := by
  unfold withWorkflowDim
  cases hw : (ctx.value .workflowKey).bind CtxVal.asString with
  | none => exact hmem
  | some w =>
      dsimp only
      by_cases h : w ≠ ""
      · rw [if_pos h]
        exact mem_mapSet_of_ne _ _ _ _ _ hmem hne
      · rwa [if_neg h]

theorem mem_withFeatureDim_of_ne (ctx : Context) (dims : List (String × GoVal))
    (k : String) (v : GoVal) (hmem : (k, v) ∈ dims) (hne : k ≠ "feature") :
    (k, v) ∈ withFeatureDim ctx dims := by
  unfold withFeatureDim
  cases hf : (ctx.value .featureKey).bind CtxVal.asString with
  | none => exact hmem
  | some f =>
      dsimp only
      by_cases h : f ≠ ""
      · rw [if_pos h]
        exact mem_mapSet_of_ne _ _ _ _ _ hmem hne
      · rwa [if_neg h]

theorem mem_withUserDim_self (ctx : Context) (dims : List (String × GoVal))
    (hu : GetUserIDFromContext ctx ≠ "") :
    ("user_id", GoVal.str (GetUserIDFromContext ctx)) ∈ withUserDim ctx dims := by
  unfold withUserDim
  rw [if_pos hu]
  exact mem_mapSet_self _ _ _

theorem mem_withWorkflowDim_self (ctx : Context) (dims : List (String × GoVal))
    (w : String) (hw : (ctx.value .workflowKey).bind CtxVal.asString = some w)
    (hne : w ≠ "") : ("workflow", GoVal.str w) ∈ withWorkflowDim ctx dims := by
  unfold withWorkflowDim
  rw [hw]
  dsimp only
  rw [if_pos hne]
  exact mem_mapSet_self _ _ _

theorem mem_withFeatureDim_self (ctx : Context) (dims : List (String × GoVal))
    (f : String) (hf : (ctx.value .featureKey).bind CtxVal.asString = some f)
    (hne : f ≠ "") : ("feature", GoVal.str f) ∈ withFeatureDim ctx dims := by
  unfold withFeatureDim
  rw [hf]
  dsimp only
  rw [if_pos hne]
  exact mem_mapSet_self _ _ _

theorem mem_withUserDim_elim (ctx : Context) (dims : List (String × GoVal))
    (k : String) (v : GoVal) (hmem : (k, v) ∈ withUserDim ctx dims) :
    k = "user_id" ∨ (k, v) ∈ dims := by
  unfold withUserDim at hmem
  by_cases h : GetUserIDFromContext ctx ≠ ""
  · rw [if_pos h] at hmem
    exact mem_mapSet_elim _ _ _ _ _ hmem
  · rw [if_neg h] at hmem
    exact Or.inr hmem

theorem mem_withWorkflowDim_elim (ctx : Context) (dims : List (String × GoVal))
    (k : String) (v : GoVal) (hmem : (k, v) ∈ withWorkflowDim ctx dims) :
    k = "workflow" ∨ (k, v) ∈ dims := by
  unfold withWorkflowDim at hmem
  cases hw : (ctx.value .workflowKey).bind CtxVal.asString with
  | none => rw [hw] at hmem; exact Or.inr hmem
  | some w =>
      rw [hw] at hmem
      dsimp only at hmem
      by_cases h : w ≠ ""
      · rw [if_pos h] at hmem
        exact mem_mapSet_elim _ _ _ _ _ hmem
      · rw [if_neg h] at hmem
        exact Or.inr hmem

theorem mem_withFeatureDim_elim (ctx : Context) (dims : List (String × GoVal))
    (k : String) (v : GoVal) (hmem : (k, v) ∈ withFeatureDim ctx dims) :
    k = "feature" ∨ (k, v) ∈ dims := by
  unfold withFeatureDim at hmem
  cases hf : (ctx.value .featureKey).bind CtxVal.asString with
  | none => rw [hf] at hmem; exact Or.inr hmem
  | some f =>
      rw [hf] at hmem
      dsimp only at hmem
      by_cases h : f ≠ ""
      · rw [if_pos h] at hmem
        exact mem_mapSet_elim _ _ _ _ _ hmem
      · rw [if_neg h] at hmem
        exact Or.inr hmem

/-- C9: reading all dimensions never yields a nil map (and cannot panic, the
nil-context case is handled); on a nil or empty context it yields the empty
non-nil map, and reading a trace id there returns the freshly synthesized
uuid (non-empty whenever the generator's output is); the flattened map
carries the explicit custom dimensions overlaid with `user_id`, `workflow`
and `feature` entries for each that is set and non-empty; and every key of
the result is a custom-dimension key or one of those three — so the trace id
is never copied into the dimensions. -/
theorem c9_dimensions_and_traceid (fresh : String) :
    (∀ ctx : Context, ∃ l, GetDimensionsFromContext ctx = some l) ∧
    (GetDimensionsFromContext .nilContext = some [] ∧
      GetDimensionsFromContext .background = some []) ∧
    (GetTraceIDFromContext fresh .nilContext = fresh ∧
      GetTraceIDFromContext fresh .background = fresh ∧
      (fresh ≠ "" → GetTraceIDFromContext fresh .nilContext ≠ "" ∧
        GetTraceIDFromContext fresh .background ≠ "")) ∧
    (∀ ctx : Context, ∀ l, GetDimensionsFromContext ctx = some l →
      (GetUserIDFromContext ctx ≠ "" →
        ("user_id", GoVal.str (GetUserIDFromContext ctx)) ∈ l) ∧
      (∀ w, (ctx.value .workflowKey).bind CtxVal.asString = some w → w ≠ "" →
        ("workflow", GoVal.str w) ∈ l) ∧
      (∀ f, (ctx.value .featureKey).bind CtxVal.asString = some f → f ≠ "" →
        ("feature", GoVal.str f) ∈ l) ∧
      (((customDimsOf ctx).map Prod.fst).Nodup →
        ∀ k v, (k, v) ∈ customDimsOf ctx →
          k ≠ "user_id" → k ≠ "workflow" → k ≠ "feature" → (k, v) ∈ l) ∧
      (∀ k v, (k, v) ∈ l →
        k ∈ (customDimsOf ctx).map Prod.fst ∨
          k = "user_id" ∨ k = "workflow" ∨ k = "feature")) := by
  refine ⟨?_, ⟨rfl, rfl⟩, ⟨rfl, rfl, fun h => ⟨h, h⟩⟩, ?_⟩
  · intro ctx
    by_cases h : ctx = .nilContext
    · exact ⟨[], by simp [GetDimensionsFromContext, h]⟩
    · exact ⟨withFeatureDim ctx (withWorkflowDim ctx
        (withUserDim ctx (insertAll [] (customDimsOf ctx)))),
        by simp [GetDimensionsFromContext, h]⟩
  · intro ctx l hl
    by_cases hnil : ctx = .nilContext
    · subst hnil
      have hle : l = [] := by
        simp [GetDimensionsFromContext] at hl
        exact hl
      subst hle
      refine ⟨?_, ?_, ?_, ?_, ?_⟩
      · intro hu
        exact absurd rfl hu
      · intro w hw
        simp [Context.value] at hw
      · intro f hf
        simp [Context.value] at hf
      · intro _ k v hkv
        simp [customDimsOf, Context.value] at hkv
      · intro k v hkv
        simp at hkv
    · unfold GetDimensionsFromContext at hl
      rw [if_neg hnil] at hl
      injection hl with hl
      subst hl
      refine ⟨?_, ?_, ?_, ?_, ?_⟩
      · intro hu
        exact mem_withFeatureDim_of_ne _ _ _ _
          (mem_withWorkflowDim_of_ne _ _ _ _ (mem_withUserDim_self _ _ hu) (by decide))
          (by decide)
      · intro w hw hne
        exact mem_withFeatureDim_of_ne _ _ _ _
          (mem_withWorkflowDim_self _ _ w hw hne) (by decide)
      · intro f hf hne
        exact mem_withFeatureDim_self _ _ f hf hne
      · intro hnd k v hkv h1 h2 h3
        exact mem_withFeatureDim_of_ne _ _ _ _
          (mem_withWorkflowDim_of_ne _ _ _ _
            (mem_withUserDim_of_ne _ _ _ _ (mem_insertAll_of_mem _ _ hnd k v hkv) h1)
            h2)
          h3
      · intro k v hkv
        rcases mem_withFeatureDim_elim _ _ _ _ hkv with hk | hkv
        · exact Or.inr (Or.inr (Or.inr hk))
        rcases mem_withWorkflowDim_elim _ _ _ _ hkv with hk | hkv
        · exact Or.inr (Or.inr (Or.inl hk))
        rcases mem_withUserDim_elim _ _ _ _ hkv with hk | hkv
        · exact Or.inr (Or.inl hk)
        rcases mem_insertAll_elim _ _ _ _ hkv with hk | hk
        · simp at hk
        · exact Or.inl hk

/-- Witness for C9: a context with user id "u1", feature "f1" and one custom
dimension produces exactly the expected flattened map, and an empty context
synthesizes the provided fresh (non-empty) trace id. -/
theorem c9_dimensions_and_traceid_witness :
    ("user_id", GoVal.str "u1") ∈
      [("team", GoVal.str "core"), ("user_id", GoVal.str "u1"),
        ("feature", GoVal.str "f1")] ∧
    ("feature", GoVal.str "f1") ∈
      [("team", GoVal.str "core"), ("user_id", GoVal.str "u1"),
        ("feature", GoVal.str "f1")] ∧
    ("team", GoVal.str "core") ∈
      [("team", GoVal.str "core"), ("user_id", GoVal.str "u1"),
        ("feature", GoVal.str "f1")] ∧
    GetTraceIDFromContext "uuid-1" Context.background ≠ "" := by
  have h := c9_dimensions_and_traceid "uuid-1"
  have h4 := h.2.2.2
    (WithDimensions (WithFeature (WithUserID Context.background "u1") "f1")
      (some [("team", GoVal.str "core")]))
    [("team", GoVal.str "core"), ("user_id", GoVal.str "u1"), ("feature", GoVal.str "f1")]
    (by decide)
  refine ⟨?_, ?_, ?_, (h.2.2.1.2.2 (by decide)).2⟩
  · have hu := h4.1 (by decide)
    exact hu
  · exact h4.2.2.1 "f1" (by decide) (by decide)
  · exact h4.2.2.2.1 (by decide) "team" (GoVal.str "core") (by decide)
      (by decide) (by decide) (by decide)

/-! ### Tracking orchestrator (`client.go`) and raw tracker (`tracker.go`) -/

/-- Go `Provider` is a string type. -/
abbrev Provider := String

/-- Go `ProviderOpenAI`. -/
def ProviderOpenAI : Provider := "openai"

/-- Go `DimensionTag` (the fields the tracking pipeline assigns; the
GORM-managed `ID`/`CreatedAt` are omitted). -/
structure DimensionTag where
  key : String
  value : String
deriving DecidableEq, Repr

/-- Go `Request` record (the fields the tracking pipeline assigns; the
GORM-managed `CreatedAt`/`UpdatedAt` bookkeeping timestamps are omitted). -/
structure Request where
  id : String
  traceID : String
  provider : Provider
  model : String
  inputTokens : Int
  outputTokens : Int
  latency : Nat
  statusCode : Nat
  error : String
  errorType : ErrorType
  dimensions : List DimensionTag
  requestedAt : Nat
  respondedAt : Nat
deriving DecidableEq, Repr

/-- Go `openai.Usage` (the fields the wrapper reads). -/
structure Usage where
  promptTokens : Int
  completionTokens : Int
deriving DecidableEq, Repr

/-- Go `openai.ChatCompletionRequest` (the field the wrapper reads). -/
structure ChatCompletionRequest where
  model : String
deriving DecidableEq, Repr

/-- Go `openai.ChatCompletionResponse`: the fields the wrapper reads plus an
opaque payload standing for the rest of the response body. -/
structure ChatCompletionResponse where
  model : String
  usage : Usage
  payload : String
deriving DecidableEq, Repr

/-- Go `Client` configuration state (`NewClient` defaults: synchronous
dispatch, no breaker). The storage adapter and logger are modelled
per-operation: `save` parameters and collected `logged` lines. -/
structure Client where
  asyncTracking : Bool
  circuitBreaker : Option CircuitBreaker
deriving DecidableEq, Repr

/-- A storage adapter whose save always succeeds. -/
def noopSave : Request → Option String := fun _ => none

/-- The record-construction part of Go `(*Client).trackRequest` (everything
before the save): token clamping, dimension conversion, the `Request`
literal, the status/error patch for a failed call, and error
categorization. -/
def Client.buildRequest (ctx : Context) (freshReqID freshTraceID : String) (now : Nat)
    (provider : Provider) (model : String) (inputTokens outputTokens : Int)
    (duration : Nat) (apiErr : Option String)
    (trackingContext : Option (List (String × GoVal))) : Request :=
  let inputTokens := if inputTokens < 0 then 0 else inputTokens
  let outputTokens := if outputTokens < 0 then 0 else outputTokens
  let dimensions := (trackingContext.getD []).map
    (fun p => DimensionTag.mk p.1 (goSprintf p.2))
  let request : Request :=
    { id := freshReqID
      traceID := GetTraceIDFromContext freshTraceID ctx
      provider := provider
      model := model
      inputTokens := inputTokens
      outputTokens := outputTokens
      latency := duration
      statusCode := 200
      error := ""
      errorType := .ErrorTypeNone
      dimensions := dimensions
      requestedAt := now - duration
      respondedAt := now }
  let request := match apiErr with
    | some e => { request with statusCode := 500, error := e }
    | none => request
  if request.error ≠ "" then
    { request with errorType := CategorizeError (some request.error) }
  else request

/-- Outcome of Go `(*Client).trackRequest`: the breaker afterwards, the
records actually handed to `storage.Save`, and the returned error. -/
structure TrackRequestResult where
  circuitBreaker : Option CircuitBreaker
  savedRequests : List Request
  trackErr : Option String
deriving DecidableEq, Repr

/-- Go `(*Client).trackRequest`: build the record, then save it — through the
circuit breaker when one is configured. `save` models the storage adapter's
response to the record. -/
def Client.trackRequest (c : Client) (save : Request → Option String) (ctx : Context)
    (freshReqID freshTraceID : String) (now : Nat) (provider : Provider) (model : String)
    (inputTokens outputTokens : Int) (duration : Nat) (apiErr : Option String)
    (trackingContext : Option (List (String × GoVal))) : TrackRequestResult :=
  let request := Client.buildRequest ctx freshReqID freshTraceID now provider model
    inputTokens outputTokens duration apiErr trackingContext
  match c.circuitBreaker with
  | some cb =>
      let outcome := cb.Call now (save request)
      { circuitBreaker := some outcome.cb
        savedRequests := if outcome.invoked then [request] else []
        trackErr := outcome.err }
  | none =>
      { circuitBreaker := none
        savedRequests := [request]
        trackErr := save request }

/-- Outcome of Go `(*Client).doTrack`: the tracking error is not propagated;
a failing track is reported to the logger instead. -/
structure DoTrackResult where
  circuitBreaker : Option CircuitBreaker
  savedRequests : List Request
  logged : List String
deriving DecidableEq, Repr

/-- Go `(*Client).doTrack`. -/
def Client.doTrack (c : Client) (save : Request → Option String) (ctx : Context)
    (freshReqID freshTraceID : String) (now : Nat) (provider : Provider) (model : String)
    (inputTokens outputTokens : Int) (duration : Nat) (apiErr : Option String)
    (trackingContext : Option (List (String × GoVal))) : DoTrackResult :=
  let r := c.trackRequest save ctx freshReqID freshTraceID now provider model
    inputTokens outputTokens duration apiErr trackingContext
  { circuitBreaker := r.circuitBreaker
    savedRequests := r.savedRequests
    logged := match r.trackErr with
      | some e => ["Failed to track request: " ++ e]
      | none => [] }

/-- Outcome of Go `(*Client).track`: also records the context the (possibly
detached) tracking unit was handed, so context independence is statable. -/
structure TrackDispatchResult where
  circuitBreaker : Option CircuitBreaker
  savedRequests : List Request
  logged : List String
  usedCtx : Context
deriving DecidableEq, Repr

/-- Go `(*Client).track`: asynchronous dispatch hands the detached unit
`context.Background()`; synchronous dispatch runs `doTrack` on the caller's
context. The detached goroutine's effects are modelled as those of the unit
once it runs. -/
def Client.track (c : Client) (save : Request → Option String) (ctx : Context)
    (freshReqID freshTraceID : String) (now : Nat) (provider : Provider) (model : String)
    (inputTokens outputTokens : Int) (duration : Nat) (apiErr : Option String)
    (trackingContext : Option (List (String × GoVal))) : TrackDispatchResult :=
  if c.asyncTracking then
    let bgCtx := Context.background
    let d := c.doTrack save bgCtx freshReqID freshTraceID now provider model
      inputTokens outputTokens duration apiErr trackingContext
    { circuitBreaker := d.circuitBreaker
      savedRequests := d.savedRequests
      logged := d.logged
      usedCtx := bgCtx }
  else
    let d := c.doTrack save ctx freshReqID freshTraceID now provider model
      inputTokens outputTokens duration apiErr trackingContext
    { circuitBreaker := d.circuitBreaker
      savedRequests := d.savedRequests
      logged := d.logged
      usedCtx := ctx }

/-- Result of Go `(*Client).TraceOpenAIRequest`, together with the tracking
effects. -/
structure TraceResult where
  response : ChatCompletionResponse
  err : Option String
  circuitBreaker : Option CircuitBreaker
  savedRequests : List Request
  logged : List String
  usedCtx : Context
deriving DecidableEq, Repr

/-- Go `(*Client).TraceOpenAIRequest`. `createChatCompletion` is the wrapped
provider function, modelled by its outcome for this invocation (`none`
models a nil function value); `now` is the instant the call returned and
`duration` the elapsed time the orchestrator measured. -/
def Client.TraceOpenAIRequest (c : Client) (save : Request → Option String)
    (ctx : Context) (request : ChatCompletionRequest)
    (createChatCompletion : Option (ChatCompletionResponse × Option String))
    (freshReqID freshTraceID : String) (now duration : Nat) : TraceResult :=
  match createChatCompletion with
  | none =>
      { response := ⟨"", ⟨0, 0⟩, ""⟩
        err := some "createChatCompletion function cannot be nil"
        circuitBreaker := c.circuitBreaker
        savedRequests := []
        logged := []
        usedCtx := ctx }
  | some (response, apiErr) =>
      let tokens : Int × Int :=
        if apiErr = none ∧
            (0 < response.usage.promptTokens ∨ 0 < response.usage.completionTokens) then
          (response.usage.promptTokens, response.usage.completionTokens)
        else (0, 0)
      let trackingContext := GetDimensionsFromContext ctx
      let t := c.track save ctx freshReqID freshTraceID now ProviderOpenAI request.model
        tokens.1 tokens.2 duration apiErr trackingContext
      { response := response
        err := apiErr
        circuitBreaker := t.circuitBreaker
        savedRequests := t.savedRequests
        logged := t.logged
        usedCtx := t.usedCtx }

/-- Go `RequestOptions` of `tracker.go`. -/
structure RequestOptions where
  traceID : String
  provider : Provider
  model : String
  dimensions : Option (List (String × GoVal))
deriving DecidableEq, Repr

/-- Go `(*Tracker).TrackRequest` of `tracker.go`: builds the record — without
token clamping or error categorization — and hands it to `storage.Save`;
returns the record built and the save's error. -/
def Tracker.TrackRequest (save : Request → Option String) (opts : RequestOptions)
    (inputTokens outputTokens : Int) (latency : Nat) (statusCode : Nat)
    (apiErr : Option String) (freshReqID : String) (now : Nat) :
    Request × Option String :=
  let dimensions := (opts.dimensions.getD []).map
    (fun p => DimensionTag.mk p.1 (goSprintf p.2))
  let request : Request :=
    { id := freshReqID
      traceID := opts.traceID
      provider := opts.provider
      model := opts.model
      inputTokens := inputTokens
      outputTokens := outputTokens
      latency := latency
      statusCode := statusCode
      error := ""
      errorType := .ErrorTypeNone
      dimensions := dimensions
      requestedAt := now - latency
      respondedAt := now }
  let request := match apiErr with
    | some e => { request with error := e }
    | none => request
  (request, save request)

/-- C1: the wrapping call returns exactly the wrapped provider call's
(response, error) pair — for every dispatch mode, breaker configuration and
save outcome; no tracking or storage error (including the circuit-open
error) is ever returned to the caller. -/
theorem c1_pass_through (c : Client) (save : Request → Option String) (ctx : Context)
    (request : ChatCompletionRequest) (response : ChatCompletionResponse)
    (apiErr : Option String) (freshReqID freshTraceID : String) (now duration : Nat) :
    (c.TraceOpenAIRequest save ctx request (some (response, apiErr))
        freshReqID freshTraceID now duration).response = response ∧
    (c.TraceOpenAIRequest save ctx request (some (response, apiErr))
        freshReqID freshTraceID now duration).err = apiErr := by
  unfold Client.TraceOpenAIRequest
  exact ⟨rfl, rfl⟩

theorem buildRequest_tokens (ctx : Context) (freshReqID freshTraceID : String)
    (now : Nat) (provider : Provider) (model : String) (inputTokens outputTokens : Int)
    (duration : Nat) (apiErr : Option String) (tc : Option (List (String × GoVal))) :
    (Client.buildRequest ctx freshReqID freshTraceID now provider model inputTokens
        outputTokens duration apiErr tc).inputTokens = max inputTokens 0 ∧
    (Client.buildRequest ctx freshReqID freshTraceID now provider model inputTokens
        outputTokens duration apiErr tc).outputTokens = max outputTokens 0 := by
  unfold Client.buildRequest
  cases apiErr with
  | none =>
      dsimp only
      constructor <;> (split <;> (dsimp only; split <;> omega))
  | some e =>
      dsimp only
      constructor <;> (split <;> (dsimp only; split <;> omega))

/-- C8 (amended): on the orchestrator path (`Client.trackRequest`, used by
every `Trace…Request` wrapper) every record is built by
`Client.buildRequest`, which clamps each negative token count to zero — so
tracking with input = -10 and output = -5 persists 0 and 0 there.  The raw
tracker path `Tracker.TrackRequest` does not clamp (see the
counterexample). -/
theorem c8_clamping_client_path :
    (∀ (ctx : Context) (freshReqID freshTraceID : String) (now : Nat)
        (provider : Provider) (model : String) (inputTokens outputTokens : Int)
        (duration : Nat) (apiErr : Option String)
        (tc : Option (List (String × GoVal))),
      (Client.buildRequest ctx freshReqID freshTraceID now provider model inputTokens
          outputTokens duration apiErr tc).inputTokens = max inputTokens 0 ∧
      (Client.buildRequest ctx freshReqID freshTraceID now provider model inputTokens
          outputTokens duration apiErr tc).outputTokens = max outputTokens 0) ∧
    (∀ (c : Client) (save : Request → Option String) (ctx : Context)
        (freshReqID freshTraceID : String) (now : Nat) (provider : Provider)
        (model : String) (inputTokens outputTokens : Int) (duration : Nat)
        (apiErr : Option String) (tc : Option (List (String × GoVal))),
      (c.trackRequest save ctx freshReqID freshTraceID now provider model inputTokens
          outputTokens duration apiErr tc).savedRequests = [] ∨
      (c.trackRequest save ctx freshReqID freshTraceID now provider model inputTokens
          outputTokens duration apiErr tc).savedRequests =
        [Client.buildRequest ctx freshReqID freshTraceID now provider model inputTokens
          outputTokens duration apiErr tc]) ∧
    (∀ (c : Client) (save : Request → Option String) (ctx : Context)
        (freshReqID freshTraceID : String) (now : Nat) (provider : Provider)
        (model : String) (duration : Nat) (apiErr : Option String)
        (tc : Option (List (String × GoVal))),
      ∀ r ∈ (c.trackRequest save ctx freshReqID freshTraceID now provider model
          (-10) (-5) duration apiErr tc).savedRequests,
        r.inputTokens = 0 ∧ r.outputTokens = 0) := by
  refine ⟨fun ctx a b now p m i o d e tc => buildRequest_tokens ctx a b now p m i o d e tc,
    ?_, ?_⟩
  · intro c save ctx a b now p m i o d e tc
    unfold Client.trackRequest
    cases c.circuitBreaker with
    | none => exact Or.inr rfl
    | some cb =>
        dsimp only
        split
        · exact Or.inr rfl
        · exact Or.inl rfl
  · intro c save ctx a b now p m d e tc r hr
    have hcases := (show
        (c.trackRequest save ctx a b now p m (-10) (-5) d e tc).savedRequests = [] ∨
        (c.trackRequest save ctx a b now p m (-10) (-5) d e tc).savedRequests =
          [Client.buildRequest ctx a b now p m (-10) (-5) d e tc] from by
      unfold Client.trackRequest
      cases c.circuitBreaker with
      | none => exact Or.inr rfl
      | some cb =>
          dsimp only
          split
          · exact Or.inr rfl
          · exact Or.inl rfl)
    rcases hcases with hnil | hone
    · rw [hnil] at hr
      simp at hr
    · rw [hone] at hr
      have hre : r = Client.buildRequest ctx a b now p m (-10) (-5) d e tc :=
        List.mem_singleton.1 hr
      subst hre
      have ht := buildRequest_tokens ctx a b now p m (-10) (-5) d e tc
      constructor
      · rw [ht.1]; decide
      · rw [ht.2]; decide

/-- Witness for C8: a concrete synchronous client tracking input = -10,
output = -5 persists a record with both counts clamped to zero; the record
appearing in `savedRequests` is the one `buildRequest` constructs. -/
theorem c8_clamping_client_path_witness :
    (Client.buildRequest Context.background "id1" "t1" 5 ProviderOpenAI "gpt"
        (-10) (-5) 2 none none).inputTokens = 0 ∧
    (Client.buildRequest Context.background "id1" "t1" 5 ProviderOpenAI "gpt"
        (-10) (-5) 2 none none).outputTokens = 0 :=
  c8_clamping_client_path.2.2 ⟨false, none⟩ noopSave Context.background "id1" "t1" 5
    ProviderOpenAI "gpt" 2 none none
    (Client.buildRequest Context.background "id1" "t1" 5 ProviderOpenAI "gpt"
      (-10) (-5) 2 none none)
    (by decide)

/-- C8 counterexample: `Tracker.TrackRequest` (`tracker.go`), a
record-building path named by the claim, persists negative token counts
unchanged: tracking input = -10 and output = -5 there builds and saves a
record carrying -10 and -5, so the clamping does not hold on every
record-building path. -/
theorem c8_tracker_no_clamp_counterexample :
    (Tracker.TrackRequest noopSave ⟨"t0", ProviderOpenAI, "gpt", none⟩ (-10) (-5) 1 200
        none "id0" 7).1.inputTokens = -10 ∧
    (Tracker.TrackRequest noopSave ⟨"t0", ProviderOpenAI, "gpt", none⟩ (-10) (-5) 1 200
        none "id0" 7).1.outputTokens = -5 := by
  constructor <;> rfl

/-- C2 does not hold on the code: with asynchronous dispatch the detached
unit is indeed handed a context independent of the caller's
(`context.Background()`), and the dimensions captured at dispatch time are
carried forward — but the trace id is resolved from that background context
inside `trackRequest`, so the persisted record carries a freshly generated
uuid ("fresh-uuid-1" here) instead of the caller's trace id "t-1", which is
what resolving from the caller's context would have produced. -/
theorem c2_async_traceid_divergence :
    (Client.TraceOpenAIRequest ⟨true, none⟩ noopSave
        (WithUserID (WithTraceID Context.background "t-1") "u-1") ⟨"gpt"⟩
        (some (⟨"gpt", ⟨5, 7⟩, "ok"⟩, none)) "req-1" "fresh-uuid-1" 100 10).usedCtx =
      Context.background ∧
    (Client.TraceOpenAIRequest ⟨true, none⟩ noopSave
        (WithUserID (WithTraceID Context.background "t-1") "u-1") ⟨"gpt"⟩
        (some (⟨"gpt", ⟨5, 7⟩, "ok"⟩, none)) "req-1" "fresh-uuid-1" 100 10).savedRequests.map
        Request.traceID = ["fresh-uuid-1"] ∧
    (Client.TraceOpenAIRequest ⟨true, none⟩ noopSave
        (WithUserID (WithTraceID Context.background "t-1") "u-1") ⟨"gpt"⟩
        (some (⟨"gpt", ⟨5, 7⟩, "ok"⟩, none)) "req-1" "fresh-uuid-1" 100 10).savedRequests.map
        Request.dimensions = [[DimensionTag.mk "user_id" "u-1"]] ∧
    GetTraceIDFromContext "fresh-uuid-1"
        (WithUserID (WithTraceID Context.background "t-1") "u-1") = "t-1" ∧
    "fresh-uuid-1" ≠ "t-1" := by
  refine ⟨rfl, rfl, rfl, rfl, by decide⟩
